import Mathlib

/-!
Verification development for the SF-Assistant per-account automation core.

The Rust source (src/player.rs, src/message.rs, src/automation.rs,
src/config.rs) is shallowly embedded: pure functions become Lean
functions, the mutex-guarded account status cell becomes explicit state
passing, machine integers become Nat/Int with explicit wrapping where the
source casts, and external sf_api types are modelled at their interface
boundary (only the fields and methods the core reads).
-/

/-- Wall-clock instants (chrono DateTime Local) are modelled as integer
seconds; chrono comparison and subtraction become Int comparison and
subtraction. -/
abbrev Time := Int

/-- sf_api command::TimeSkip. -/
inductive TimeSkip where
  | Glass
  | Mushroom
deriving DecidableEq

/-- sf_api command::ExpeditionSetting. -/
inductive ExpeditionSetting where
  | PreferQuests
  | PreferExpeditions
deriving DecidableEq

/-- One expedition reward item, abstracted at the interface boundary: the
source classifies a reward only through whether the lowercased Debug
formatting contains the substrings mushroom, gold or silver, and egg
(message.rs lines 443-446), so only those three derived flags are kept. -/
structure RewardItem where
  is_mush : Bool
  is_gold : Bool
  is_egg : Bool
deriving DecidableEq

/-- sf_api tavern::ExpeditionStage, restricted to the payloads the decision
engine reads (encounters are only counted, so they are bare indices). -/
inductive ExpeditionStage where
  | Boss (boss : Nat)
  | Rewards (rewards : List RewardItem)
  | Encounters (encs : List Nat)
  | Waiting (untilT : Time)
  | Finished
  | Unknown
deriving DecidableEq

/-- The active expedition as exposed by gs.tavern.expeditions.active():
only current_stage() is read. -/
structure ActiveExpedition where
  current_stage : ExpeditionStage
deriving DecidableEq

/-- sf_api tavern::CurrentAction, restricted to the fields the core reads
(the Quest variant carries more fields in sf_api; only busy_until is
used). -/
inductive CurrentAction where
  | Idle
  | Quest (busy_until : Time)
  | Expedition
  | CityGuard (hours : Nat) (busy_until : Time)
  | Unknown (code : Nat)
deriving DecidableEq

/-- One available tavern quest; the in-engine scorer reads base_length
(seconds), base_silver and base_experience (message.rs lines 799-816). -/
structure TavernQuest where
  base_length : Nat
  base_silver : Nat
  base_experience : Nat
deriving DecidableEq

/-- sf_api tavern::AvailableTasks; the expedition payload is never
inspected beyond its presence. -/
inductive AvailableTasks where
  | Quests (qs : List TavernQuest)
  | Expeditions (es : List Nat)
deriving DecidableEq

/-- The tavern part of the snapshot; available_tasks() and
can_change_questing_preference() are sf_api methods, modelled as fields. -/
structure Tavern where
  current_action : CurrentAction
  expeditions_active : Option ActiveExpedition
  quicksand_glasses : Nat
  thirst_for_adventure_sec : Nat
  beer_drunk : Nat
  available_tasks : AvailableTasks
  questing_preference : ExpeditionSetting
  can_change_questing_preference : Bool
deriving DecidableEq

/-- The portal record: only can_fight is read. -/
structure Portal where
  can_fight : Bool
deriving DecidableEq

/-- sf_api dungeons::DungeonProgress. -/
inductive DungeonProgress where
  | Locked
  | Open (finished : Nat)
  | Finished
deriving DecidableEq

/-- The dungeons part of the snapshot. The source iterates the strum enum
LightDungeon (skipping Tower) and ShadowDungeon in declaration order and
asks gs.dungeons.progress(d) for each; the enum iteration is modelled as
two lists in that order, with the tower held separately. -/
structure Dungeons where
  portal : Option Portal
  next_free_fight : Option Time
  tower_progress : DungeonProgress
  light_progress : List DungeonProgress
  shadow_progress : List DungeonProgress
deriving DecidableEq

/-- A dungeon identifier (sf_api Dungeon), abstracted to the side and the
position in the iteration order of the corresponding enum. -/
inductive DungeonIdent where
  | light (i : Nat)
  | shadow (i : Nat)
deriving DecidableEq

/-- One pet: only id and level are read. -/
structure Pet where
  id : Nat
  level : Nat
deriving DecidableEq

/-- sf_api unlockables::HabitatExploration, restricted to what the core
matches on (Exploring with its fights_won field, or anything else). -/
inductive HabitatExploration where
  | Exploring (fights_won : Nat)
  | NotExploring
deriving DecidableEq

/-- One pet habitat record. -/
structure Habitat where
  battled_opponent : Bool
  pets : List Pet
  exploration : HabitatExploration
deriving DecidableEq

/-- The pet PvP opponent; HabitatType is abstracted to its index in the
strum iteration order. -/
structure PetOpponent where
  id : Nat
  habitat : Option Nat
  next_free_battle : Option Time
deriving DecidableEq

/-- The pets part of the snapshot; habitats are listed in HabitatType
iteration order and keyed access becomes positional access. -/
structure Pets where
  opponent : PetOpponent
  next_free_exploration : Option Time
  habitats : List Habitat
deriving DecidableEq

/-- Guild hydra state. -/
structure Hydra where
  remaining_fights : Nat
  next_battle : Option Time
deriving DecidableEq

/-- The guild part of the snapshot: only the hydra is read by the
automation tick. -/
structure Guild where
  hydra : Hydra
deriving DecidableEq

/-- The character part of the snapshot; thirsty_wanderer models
equipment.has_enchantment(Enchantment::ThirstyWanderer). -/
structure Character where
  mushrooms : Nat
  thirsty_wanderer : Bool
deriving DecidableEq

/-- The game-state snapshot (sf_api GameState), restricted to the fields
the automation core reads. -/
structure GameState where
  tavern : Tavern
  dungeons : Dungeons
  character : Character
  pets : Option Pets
  guild : Option Guild
deriving DecidableEq

/-- config.rs MissionStrategy. -/
inductive MissionStrategy where
  | Shortest
  | MostGold
  | BestGoldPerMinute
  | BestXpPerMinute
  | Smartest
deriving DecidableEq

/-- config.rs ExpeditionRewardPriority. -/
inductive ExpeditionRewardPriority where
  | MushroomsGoldEggs
  | GoldMushroomsEggs
  | EggsMushroomsGold
deriving DecidableEq

/-- config.rs CharacterConfig, restricted to the fields the automation
core reads. -/
structure CharacterConfig where
  auto_tavern : Bool
  auto_expeditions : Bool
  auto_dungeons : Bool
  auto_pets : Bool
  auto_guild : Bool
  auto_guild_accept_defense : Bool
  auto_guild_accept_attack : Bool
  auto_guild_hydra : Bool
  mission_strategy : MissionStrategy
  use_glasses_for_tavern : Bool
  use_glasses_for_expeditions : Bool
  auto_buy_beer_mushrooms : Bool
  max_mushrooms_beer : Nat
  max_mushrooms_dungeon_skip : Nat
  max_mushrooms_pet_skip : Nat
  expedition_reward_priority : ExpeditionRewardPriority
deriving DecidableEq

/-- sf_api command::Command, restricted to the variants the automation
core constructs or matches on. -/
inductive SFCommand where
  | StartQuest (quest_pos : Nat) (overwrite_inv : Bool)
  | FinishQuest (skip : Option TimeSkip)
  | BuyBeer
  | SetQuestsInsteadOfExpeditions (value : ExpeditionSetting)
  | ExpeditionStart (pos : Nat)
  | ExpeditionContinue
  | ExpeditionPickEncounter (pos : Nat)
  | ExpeditionPickReward (pos : Nat)
  | ExpeditionSkipWait (typ : TimeSkip)
  | StartWork (hours : Nat)
  | FinishWork
  | FightPortal
  | FightTower (current_level : Nat) (use_mush : Bool)
  | FightDungeon (dungeon : DungeonIdent) (use_mushroom : Bool)
  | FightPetOpponent (habitat : Nat) (opponent_id : Nat)
  | FightPetDungeon (use_mush : Bool) (habitat : Nat) (enemy_pos : Nat) (player_pet_id : Nat)
  | GuildJoinDefense
  | GuildJoinAttack
  | GuildPetBattle (use_mushroom : Bool)
  | Update
deriving DecidableEq

/-- player.rs AccountStatus. The connection handle (Box Session) is
modelled as a bare Nat identifier; the snapshot payload is the embedded
GameState. -/
inductive AccountStatus where
  | LoggingIn
  | Idle (session : Nat) (gs : GameState)
  | Busy (gs : GameState) (reason : String)
  | FatalError (msg : String)
  | LoggingInAgain
deriving DecidableEq

/-- player.rs AccountStatus::take_session: the source mem::replaces self
with LoggingInAgain, then rebuilds either Busy (returning the contained
session) from Idle or the untouched original state; embedded as a pure
function returning the result and the new state. -/
def AccountStatus.take_session (st : AccountStatus) (reason : String) :
    Option Nat × AccountStatus :=
  match st with
  | .Idle a b => (some a, .Busy b reason)
  | x => (none, x)

/-- player.rs AccountStatus::put_session: re-attaches a handle after use
from Busy, and silently drops it from any other state. -/
def AccountStatus.put_session (st : AccountStatus) (session : Nat) :
    AccountStatus :=
  match st with
  | .Busy a _ => .Idle session a
  | x => x

/-- True exactly on the Idle variant. -/
def AccountStatus.isIdle : AccountStatus → Bool
  | .Idle _ _ => true
  | _ => false

/-- True exactly on the Busy variant. -/
def AccountStatus.isBusy : AccountStatus → Bool
  | .Busy _ _ => true
  | _ => false

/-- The status cell together with the handles currently checked out to
in-flight operations (each successful take_session hands its caller one
handle; put returns the most recent one). -/
structure SessionCell where
  status : AccountStatus
  in_flight : List Nat
deriving DecidableEq

/-- One call against the status cell: a take_session with its reason tag,
or a put_session by an in-flight holder returning its handle. -/
inductive SessionOp where
  | take (reason : String)
  | put
deriving DecidableEq

/-- Effect of one call on the cell: take stores a returned handle with
the in-flight holders; put removes the most recently taken handle and
hands it to put_session (a put with no outstanding handle is impossible
for callers, hence a no-op). -/
def SessionCell.step (s : SessionCell) : SessionOp → SessionCell
  | .take reason =>
      match s.status.take_session reason with
      | (some h, st) => ⟨st, h :: s.in_flight⟩
      | (none, st) => ⟨st, s.in_flight⟩
  | .put =>
      match s.in_flight with
      | h :: rest => ⟨s.status.put_session h, rest⟩
      | [] => s

/-- Run a sequence of take/put calls against the cell. -/
def SessionCell.run (s : SessionCell) (ops : List SessionOp) : SessionCell :=
  ops.foldl SessionCell.step s

/-- Number of places the connection handle is present: one if the status
is Idle (the handle sits in the cell) plus one for each in-flight
holder. -/
def SessionCell.handles (s : SessionCell) : Nat :=
  (if s.status.isIdle then 1 else 0) + s.in_flight.length

theorem SessionCell.handles_step_le (s : SessionCell) (op : SessionOp) :
    (s.step op).handles ≤ s.handles := by
  cases op with
  | take reason =>
      cases s with
      | mk status in_flight =>
        cases status <;>
          simp [SessionCell.step, AccountStatus.take_session,
            SessionCell.handles, AccountStatus.isIdle, Nat.add_comm]
  | put =>
      cases s with
      | mk status in_flight =>
        cases in_flight with
        | nil => exact Nat.le_refl _
        | cons h rest =>
          cases status <;>
            (simp [SessionCell.step, AccountStatus.put_session,
              SessionCell.handles, AccountStatus.isIdle]; try omega)

theorem SessionCell.handles_run_le (s : SessionCell) (ops : List SessionOp) :
    (s.run ops).handles ≤ s.handles := by
  induction ops generalizing s with
  | nil => exact Nat.le_refl _
  | cons op rest ih =>
      exact Nat.le_trans (ih (s.step op)) (SessionCell.handles_step_le s op)

/-- C1: take_session moves Idle to Busy and returns the contained session
handle; from every other state it returns nothing and leaves the state
unchanged; put_session moves Busy back to Idle re-attaching the handle
and is a no-op (dropping the handle) from every other state; hence after
any sequence of take/put calls the handle is present in at most one of
the Idle state and the in-flight holders. -/
theorem account_status_ownership :
    (∀ (h : Nat) (gs : GameState) (r : String),
        AccountStatus.take_session (.Idle h gs) r = (some h, .Busy gs r)) ∧
    (∀ (st : AccountStatus) (r : String), st.isIdle = false →
        st.take_session r = (none, st)) ∧
    (∀ (gs : GameState) (r : String) (h : Nat),
        AccountStatus.put_session (.Busy gs r) h = .Idle h gs) ∧
    (∀ (st : AccountStatus) (h : Nat), st.isBusy = false →
        st.put_session h = st) ∧
    (∀ (s : SessionCell) (ops : List SessionOp),
        s.handles ≤ 1 → (s.run ops).handles ≤ 1) := by
  refine ⟨fun h gs r => rfl, ?_, fun gs r h => rfl, ?_, ?_⟩
  · intro st r hn
    cases st <;> simp_all [AccountStatus.isIdle, AccountStatus.take_session]
  · intro st h hn
    cases st <;> simp_all [AccountStatus.isBusy, AccountStatus.put_session]
  · intro s ops h1
    exact Nat.le_trans (SessionCell.handles_run_le s ops) h1

/-- Sample concrete game state used to instantiate witnesses. -/
def gsEmpty : GameState where
  tavern := {
    current_action := .Idle
    expeditions_active := none
    quicksand_glasses := 0
    thirst_for_adventure_sec := 0
    beer_drunk := 0
    available_tasks := .Quests []
    questing_preference := .PreferQuests
    can_change_questing_preference := false }
  dungeons := {
    portal := none
    next_free_fight := none
    tower_progress := .Locked
    light_progress := []
    shadow_progress := [] }
  character := { mushrooms := 0, thirsty_wanderer := false }
  pets := none
  guild := none

theorem account_status_ownership_witness :
    AccountStatus.take_session (.Idle 7 gsEmpty) "Automation" =
      (some 7, .Busy gsEmpty "Automation") ∧
    (SessionCell.run ⟨.Idle 7 gsEmpty, []⟩
      [.take "a", .put, .put, .take "b"]).handles ≤ 1 :=
  ⟨account_status_ownership.1 7 gsEmpty "Automation",
   account_status_ownership.2.2.2.2 ⟨.Idle 7 gsEmpty, []⟩
     [.take "a", .put, .put, .take "b"] (by decide)⟩

/-- The primary-command classifier from the RunAutomationTick handler
(message.rs lines 1053-1071): tavern, expedition and city-guard commands
form the primary family; everything else is a side action. -/
def is_primary : SFCommand → Bool
  | .StartQuest _ _ => true
  | .FinishQuest _ => true
  | .BuyBeer => true
  | .SetQuestsInsteadOfExpeditions _ => true
  | .ExpeditionStart _ => true
  | .ExpeditionContinue => true
  | .ExpeditionPickEncounter _ => true
  | .ExpeditionPickReward _ => true
  | .ExpeditionSkipWait _ => true
  | .StartWork _ => true
  | .FinishWork => true
  | _ => false

/-- The enqueue-on-busy logic of the RunAutomationTick handler
(message.rs lines 1047-1096): a plain Update is never queued; a primary
command is dropped when a primary command is already queued; everything
else is pushed at the back of the automation queue. -/
def enqueueOnBusy (queue : List SFCommand) (cmd : SFCommand) :
    List SFCommand :=
  if cmd = .Update then queue
  else if is_primary cmd && queue.any is_primary then queue
  else queue ++ [cmd]

/-- Number of primary commands in the queue. -/
def countPrimary (queue : List SFCommand) : Nat :=
  (queue.filter is_primary).length

theorem countPrimary_append (q : List SFCommand) (c : SFCommand) :
    countPrimary (q ++ [c]) =
      countPrimary q + (if is_primary c then 1 else 0) := by
  simp [countPrimary, List.filter_append]
  cases h : is_primary c <;> simp [h]

theorem countPrimary_enqueueOnBusy_le (q : List SFCommand) (c : SFCommand)
    (h : countPrimary q ≤ 1) : countPrimary (enqueueOnBusy q c) ≤ 1 := by
  unfold enqueueOnBusy
  split
  · exact h
  · split
    · exact h
    · rename_i hnu hnp
      rw [countPrimary_append]
      cases hp : is_primary c with
      | false => simpa [hp] using h
      | true =>
          simp only [hp, Bool.true_and, Bool.not_eq_true] at hnp
          have hq0 : countPrimary q = 0 := by
            have hnil : List.filter is_primary q = [] := by
              rw [List.filter_eq_nil_iff]
              intro a ha
              have := List.any_eq_false.mp hnp a ha
              simp [this]
            simp [countPrimary, hnil]
          simp [hq0, hp]

/-- C2: over any sequence of automation ticks taken while the session
handle is unavailable, the automation queue keeps at most one primary
command (starting from the empty queue of AccountInfo::new, and more
generally preserving the bound from any queue satisfying it); a primary
command is appended exactly when no primary command is already queued; a
side-action command is always appended; the Update poll command is never
appended. -/
theorem automation_queue_exclusivity :
    (∀ cmds : List SFCommand, countPrimary (cmds.foldl enqueueOnBusy []) ≤ 1) ∧
    (∀ (q : List SFCommand) (c : SFCommand), countPrimary q ≤ 1 →
        countPrimary (enqueueOnBusy q c) ≤ 1) ∧
    (∀ (q : List SFCommand) (c : SFCommand), is_primary c = true →
        q.any is_primary = true → enqueueOnBusy q c = q) ∧
    (∀ (q : List SFCommand) (c : SFCommand), is_primary c = true →
        q.any is_primary = false → enqueueOnBusy q c = q ++ [c]) ∧
    (∀ (q : List SFCommand) (c : SFCommand), is_primary c = false →
        c ≠ .Update → enqueueOnBusy q c = q ++ [c]) ∧
    (∀ q : List SFCommand, enqueueOnBusy q .Update = q) := by
  have hstep := countPrimary_enqueueOnBusy_le
  refine ⟨?_, hstep, ?_, ?_, ?_, ?_⟩
  · intro cmds
    have : ∀ (l : List SFCommand) (q : List SFCommand), countPrimary q ≤ 1 →
        countPrimary (l.foldl enqueueOnBusy q) ≤ 1 := by
      intro l
      induction l with
      | nil => intro q h; exact h
      | cons c rest ih => intro q h; exact ih _ (hstep q c h)
    exact this cmds [] (by simp [countPrimary])
  · intro q c hp hq
    have hcu : c ≠ SFCommand.Update := by
      intro he; rw [he] at hp; simp [is_primary] at hp
    simp [enqueueOnBusy, hcu, hp, hq]
  · intro q c hp hq
    have hcu : c ≠ SFCommand.Update := by
      intro he; rw [he] at hp; simp [is_primary] at hp
    simp [enqueueOnBusy, hcu, hp, hq]
  · intro q c hp hcu
    simp [enqueueOnBusy, hcu, hp]
  · intro q
    simp [enqueueOnBusy]

theorem automation_queue_exclusivity_witness :
    countPrimary
      ([SFCommand.FightPortal, .StartWork 1, .FinishWork,
        .GuildJoinDefense].foldl enqueueOnBusy []) ≤ 1 ∧
    enqueueOnBusy [SFCommand.StartWork 1] .FinishWork =
      [SFCommand.StartWork 1] ∧
    enqueueOnBusy [SFCommand.FightPortal] .GuildJoinAttack =
      [SFCommand.FightPortal, .GuildJoinAttack] ∧
    enqueueOnBusy [SFCommand.FightPortal] .Update = [SFCommand.FightPortal] :=
  ⟨automation_queue_exclusivity.1
      [SFCommand.FightPortal, .StartWork 1, .FinishWork, .GuildJoinDefense],
   automation_queue_exclusivity.2.2.1 [SFCommand.StartWork 1] .FinishWork
      (by decide) (by decide),
   automation_queue_exclusivity.2.2.2.2.1 [SFCommand.FightPortal]
      .GuildJoinAttack (by decide) (by decide),
   automation_queue_exclusivity.2.2.2.2.2 [SFCommand.FightPortal]⟩

/-- A mission candidate (automation.rs Quest and Expedition both expose
exactly these accessors through the MissionLike trait). -/
structure Mission where
  id : Nat
  minutes : Nat
  gold : Nat
  xp : Nat
  mushrooms : Nat
deriving DecidableEq

/-- The f64 values reachable in the Smartest scoring, modelled as exact
rationals extended with the IEEE special values infinity and NaN that the
source can produce (gpm and xpm return INFINITY when minutes is 0, and
INFINITY divided by INFINITY is NaN); f64 rounding of finite values is
not modelled, and the properties proved here do not depend on it. -/
inductive F where
  | nan
  | inf
  | fin (q : Rat)
deriving DecidableEq

/-- IEEE strict less-than on the reachable f64 values: every comparison
against NaN is false, infinity is above every finite value. -/
def F.lt : F → F → Bool
  | _, .nan => false
  | .nan, _ => false
  | .inf, _ => false
  | .fin _, .inf => true
  | .fin a, .fin b => decide (a < b)

/-- IEEE division on the reachable values (all operands here are
nonnegative): infinity over infinity is NaN, finite over infinity is 0,
positive over 0 is infinity, 0 over 0 is NaN. -/
def F.div : F → F → F
  | .nan, _ => .nan
  | _, .nan => .nan
  | .inf, .inf => .nan
  | .inf, .fin _ => .inf
  | .fin _, .inf => .fin 0
  | .fin a, .fin b =>
      if b = 0 then (if a = 0 then .nan else .inf) else .fin (a / b)

/-- Multiplication by a positive finite constant. -/
def F.mulConst (c : Rat) : F → F
  | .nan => .nan
  | .inf => .inf
  | .fin a => .fin (c * a)

/-- Addition on the reachable values (no opposite infinities arise). -/
def F.add : F → F → F
  | .nan, _ => .nan
  | _, .nan => .nan
  | .inf, _ => .inf
  | _, .inf => .inf
  | .fin a, .fin b => .fin (a + b)

/-- Subtraction of a finite constant. -/
def F.subConst : F → Rat → F
  | .nan, _ => .nan
  | .inf, _ => .inf
  | .fin a, c => .fin (a - c)

/-- Rust f64::max, which ignores NaN operands. -/
def F.fmax : F → F → F
  | .nan, y => y
  | x, .nan => x
  | .inf, _ => .inf
  | _, .inf => .inf
  | .fin a, .fin b => .fin (max a b)

theorem F.lt_irrefl (x : F) : F.lt x x = false := by
  cases x <;> simp [F.lt]

/-- automation.rs gpm: gold per minute as f64, INFINITY when minutes is 0. -/
def gpm (q : Mission) : F :=
  if q.minutes = 0 then .inf else .fin ((q.gold : Rat) / (q.minutes : Rat))

/-- automation.rs xpm: experience per minute as f64, INFINITY when minutes
is 0. -/
def xpm (q : Mission) : F :=
  if q.minutes = 0 then .inf else .fin ((q.xp : Rat) / (q.minutes : Rat))

/-- The i64 maximum sentinel. -/
def i64Max : Int := 2 ^ 63 - 1

/-- The truncating Rust cast `as i64` applied to a nonnegative integer
(the source computes in i128, where value * 1_000_000 never overflows,
and then truncates to 64 bits, reinterpreting the low word as signed). -/
def as_i64 (n : Nat) : Int :=
  let m : Nat := n % 2 ^ 64
  if m < 2 ^ 63 then (m : Int) else (m : Int) - 2 ^ 64

/-- automation.rs rate: integer-scaled reward per minute,
value * 1_000_000 / minutes computed in i128 and cast to i64, with
i64::MAX as the sentinel when minutes is 0 (both inputs are unsigned, so
the i128 division is Nat division). -/
def rate (value : Nat) (minutes : Nat) : Int :=
  if minutes = 0 then i64Max
  else as_i64 (value * 1000000 / minutes)

/-- The wrapping negation of `q.gold() as i64` used inside the Shortest
sort key (negating i64::MIN wraps to itself in release builds). -/
def as_i64_neg (g : Nat) : Int :=
  let v := as_i64 g
  if v = -(2 ^ 63) then v else -v

/-- The Shortest sort key (mushrooms, minutes, negated gold), compared
lexicographically exactly as the Rust tuple is. -/
def shortKey (q : Mission) : Lex (Nat × Lex (Nat × Int)) :=
  toLex (q.mushrooms, toLex (q.minutes, as_i64_neg q.gold))

/-- Boolean comparator for the Shortest arm of pick_mission. -/
def shortLe (a b : Mission) : Bool :=
  decide (shortKey a ≤ shortKey b)

/-- Boolean comparator for the MostGold arm (descending gold). -/
def goldLe (a b : Mission) : Bool :=
  decide (b.gold ≤ a.gold)

/-- Boolean comparator for the BestGoldPerMinute arm (descending rate). -/
def goldRateLe (a b : Mission) : Bool :=
  decide (rate b.gold b.minutes ≤ rate a.gold a.minutes)

/-- Boolean comparator for the BestXpPerMinute arm (descending rate). -/
def xpRateLe (a b : Mission) : Bool :=
  decide (rate b.xp b.minutes ≤ rate a.xp a.minutes)

/-- The Smartest composite score of one candidate, given the batch maxima
used for normalization (automation.rs lines 299-305). -/
def smartestScore (max_gpm max_xpm : F) (q : Mission) : F :=
  let g := if F.lt (.fin 0) max_gpm then F.div (gpm q) max_gpm else .fin 0
  let x := if F.lt (.fin 0) max_xpm then F.div (xpm q) max_xpm else .fin 0
  let speed : Rat := 1 / max (q.minutes : Rat) 1
  let mush_penalty : Rat := if q.mushrooms > 0 then 15 / 100 else 0
  F.subConst
    (F.add (F.add (F.mulConst (2 / 5) g) (F.mulConst (2 / 5) x))
      (.fin (1 / 5 * speed)))
    mush_penalty

/-- One step of the Smartest best-candidate accumulation: the incumbent is
replaced only when the new score is strictly greater (automation.rs lines
306-310). -/
def smartStep (score : Mission → F) (best : Option (F × Mission))
    (q : Mission) : Option (F × Mission) :=
  match best with
  | none => some (score q, q)
  | some (s, b) => if F.lt s (score q) then some (score q, q) else some (s, b)

/-- The Smartest best-candidate fold over the filtered list. -/
def smartFold (score : Mission → F) (items : List Mission) :
    Option (F × Mission) :=
  items.foldl (smartStep score) none

/-- The Smartest arm of pick_mission: compute the batch maxima in one
pass, then keep the strictly best-scoring candidate. -/
def smartestPick (items : List Mission) : Option Mission :=
  let max_gpm := items.foldl (fun m q => F.fmax m (gpm q)) (.fin 0)
  let max_xpm := items.foldl (fun m q => F.fmax m (xpm q)) (.fin 0)
  (smartFold (smartestScore max_gpm max_xpm) items).map (fun p => p.2)

/-- automation.rs pick_mission: candidates with nonzero mushroom cost are
removed first, then one strategy arm ranks the remainder; the Rust stable
sort_by and sort_by_key become stable mergeSort with the corresponding
total comparator, and into_iter().next() becomes head?. -/
def pick_mission (items : List Mission) (strat : MissionStrategy) :
    Option Mission :=
  let items := items.filter (fun q => q.mushrooms == 0)
  match strat with
  | .Shortest => (items.mergeSort shortLe).head?
  | .MostGold => (items.mergeSort goldLe).head?
  | .BestGoldPerMinute => (items.mergeSort goldRateLe).head?
  | .BestXpPerMinute => (items.mergeSort xpRateLe).head?
  | .Smartest => smartestPick items

theorem shortLe_trans (a b c : Mission) : shortLe a b = true →
    shortLe b c = true → shortLe a c = true := by
  simp only [shortLe, decide_eq_true_eq]
  exact le_trans

theorem shortLe_total (a b : Mission) : (shortLe a b || shortLe b a) = true := by
  simp only [shortLe, Bool.or_eq_true, decide_eq_true_eq]
  exact le_total _ _

theorem shortKey_minutes_le {q p : Mission} (hq : q.mushrooms = 0)
    (hp : p.mushrooms = 0) (h : shortKey q ≤ shortKey p) :
    q.minutes ≤ p.minutes := by
  unfold shortKey at h
  rcases (Prod.Lex.le_iff _ _).mp h with h1 | ⟨_, h2⟩
  · rw [hq, hp] at h1
    exact absurd h1 (lt_irrefl 0)
  · rcases (Prod.Lex.le_iff _ _).mp h2 with h3 | ⟨h3, _⟩
    · exact le_of_lt h3
    · exact le_of_eq h3

/-- C4: when every candidate has a nonzero premium (mushroom) cost,
pick_mission returns none for every strategy, because premium-cost
candidates are removed before any ranking is applied. -/
theorem pick_mission_all_premium_none (items : List Mission)
    (strat : MissionStrategy) (h : ∀ q ∈ items, q.mushrooms ≠ 0) :
    pick_mission items strat = none := by
  have hnil : items.filter (fun q => q.mushrooms == 0) = [] := by
    rw [List.filter_eq_nil_iff]
    intro a ha
    simpa using h a ha
  cases strat <;>
    simp [pick_mission, hnil, smartestPick, smartFold, List.mergeSort_nil]

theorem pick_mission_all_premium_none_witness :
    pick_mission [⟨1, 10, 100, 50, 1⟩, ⟨2, 5, 10, 10, 3⟩] .Smartest = none ∧
    pick_mission [⟨1, 10, 100, 50, 1⟩] .Shortest = none :=
  ⟨pick_mission_all_premium_none _ .Smartest (by decide),
   pick_mission_all_premium_none _ .Shortest (by decide)⟩

/-- C5: under the Shortest strategy, on a non-empty list of
zero-premium-cost candidates, the returned candidate has a duration less
than or equal to the duration of every candidate in the list. -/
theorem pick_mission_shortest_min (items : List Mission)
    (hall : ∀ q ∈ items, q.mushrooms = 0) (hne : items ≠ []) :
    ∃ q, pick_mission items .Shortest = some q ∧ q ∈ items ∧
      ∀ p ∈ items, q.minutes ≤ p.minutes := by
  have hfilter : items.filter (fun q => q.mushrooms == 0) = items := by
    rw [List.filter_eq_self]
    intro a ha
    simp [hall a ha]
  have hperm := List.mergeSort_perm items shortLe
  have hsorted := List.sorted_mergeSort shortLe_trans shortLe_total items
  cases hms : items.mergeSort shortLe with
  | nil =>
      rw [hms] at hperm
      exact absurd (List.perm_nil.mp hperm.symm) hne
  | cons q t =>
      rw [hms] at hperm hsorted
      have hq_mem : q ∈ items := hperm.mem_iff.mp (by simp)
      refine ⟨q, ?_, hq_mem, ?_⟩
      · simp [pick_mission, hfilter, hms]
      · intro p hp
        have hp' : p ∈ q :: t := hperm.mem_iff.mpr hp
        rcases List.mem_cons.mp hp' with rfl | hpt
        · exact le_refl _
        · have hle := (List.pairwise_cons.mp hsorted).1 p hpt
          have hk : shortKey q ≤ shortKey p := by
            simpa [shortLe] using hle
          exact shortKey_minutes_le (hall q hq_mem) (hall p hp) hk

theorem pick_mission_shortest_min_witness :
    ∃ q, pick_mission [⟨1, 10, 7, 0, 0⟩, ⟨2, 3, 5, 0, 0⟩] .Shortest = some q ∧
      q ∈ [⟨1, 10, 7, 0, 0⟩, ⟨2, 3, 5, 0, 0⟩] ∧
      ∀ p ∈ [Mission.mk 1 10 7 0 0, Mission.mk 2 3 5 0 0],
        q.minutes ≤ p.minutes :=
  pick_mission_shortest_min _ (by decide) (by decide)

/-- C6 counterexample: the rate is the i128 quotient truncated by an
`as i64` cast, so for a u64-sized value it wraps instead of equalling the
exact scaled quotient: at value 2^64 - 1 and one minute the code yields
-1000000 while the exact quotient is (2^64 - 1) * 1000000. -/
theorem rate_overflow_counterexample :
    rate (2 ^ 64 - 1) 1 = -1000000 ∧
    ((2 ^ 64 - 1) * 1000000 / 1 : Int) ≠ -1000000 := by
  constructor
  · decide
  · decide

/-- C6 (amended): for minutes greater than 0, whenever the exact scaled
quotient value * 1,000,000 / minutes fits below 2^63 the rate equals that
exact integer quotient (no floating point is involved), and for minutes
equal to 0 the rate saturates to the i64 maximum sentinel. -/
theorem rate_exact_within_i64 :
    (∀ v m : Nat, 0 < m → v * 1000000 / m < 2 ^ 63 →
        rate v m = ((v * 1000000 / m : Nat) : Int)) ∧
    (∀ v : Nat, rate v 0 = i64Max) := by
  constructor
  · intro v m hm hlt
    have hm0 : m ≠ 0 := Nat.pos_iff_ne_zero.mp hm
    have hmod : v * 1000000 / m % 2 ^ 64 = v * 1000000 / m :=
      Nat.mod_eq_of_lt (lt_trans hlt (by norm_num))
    unfold rate
    rw [if_neg hm0]
    unfold as_i64
    simp only [hmod]
    rw [if_pos hlt]
  · intro v
    simp [rate]

theorem rate_exact_within_i64_witness :
    rate 3 2 = ((3 * 1000000 / 2 : Nat) : Int) ∧ rate 7 0 = i64Max :=
  ⟨rate_exact_within_i64.1 3 2 (by decide) (by decide),
   rate_exact_within_i64.2 7⟩

/-- C7: pick_mission is a pure function, so identical candidate lists and
strategies give the identical selected candidate; and in the Smartest
accumulation a later candidate whose score does not strictly exceed the
incumbent score (in particular an equal-score tie) never displaces the
first-seen incumbent. -/
theorem pick_mission_deterministic_ties_first :
    (∀ (l₁ l₂ : List Mission) (s₁ s₂ : MissionStrategy), l₁ = l₂ → s₁ = s₂ →
        pick_mission l₁ s₁ = pick_mission l₂ s₂) ∧
    (∀ (score : Mission → F) (l : List Mission) (s : F) (b q : Mission),
        smartFold score l = some (s, b) → score q = s →
        smartFold score (l ++ [q]) = some (s, b)) := by
  constructor
  · intro l₁ l₂ s₁ s₂ h1 h2
    rw [h1, h2]
  · intro score l s b q hfold hscore
    unfold smartFold at hfold ⊢
    rw [List.foldl_append, hfold]
    simp [smartStep, hscore, F.lt_irrefl]

theorem pick_mission_deterministic_ties_first_witness :
    pick_mission [⟨1, 5, 10, 10, 0⟩] .Smartest =
      pick_mission [⟨1, 5, 10, 10, 0⟩] .Smartest ∧
    smartFold (fun _ => .fin 1) ([⟨1, 5, 10, 10, 0⟩] ++ [⟨2, 9, 9, 9, 0⟩]) =
      some (.fin 1, ⟨1, 5, 10, 10, 0⟩) :=
  ⟨pick_mission_deterministic_ties_first.1 _ _ _ _ rfl rfl,
   pick_mission_deterministic_ties_first.2 (fun _ => .fin 1)
     [⟨1, 5, 10, 10, 0⟩] (.fin 1) ⟨1, 5, 10, 10, 0⟩ ⟨2, 9, 9, 9, 0⟩ rfl rfl⟩

/-- Portal readiness (message.rs: if let Some(portal) and portal.can_fight). -/
def portalReady (gs : GameState) : Bool :=
  match gs.dungeons.portal with
  | some p => p.can_fight
  | none => false

/-- Dungeon timer readiness: next_free_fight.map(t <= now).unwrap_or(true). -/
def nextReadyDungeon (gs : GameState) (now : Time) : Bool :=
  match gs.dungeons.next_free_fight with
  | some t => decide (t ≤ now)
  | none => true

/-- Keep-first fold for the lowest finished count among the open dungeons
of one side list, continuing from an accumulator (message.rs lines
533-546 and the two identical copies). -/
def bestOpenFold (side : Nat → DungeonIdent) (l : List DungeonProgress)
    (start : Option (DungeonIdent × Nat)) : Option (DungeonIdent × Nat) :=
  l.enum.foldl
    (fun best (e : Nat × DungeonProgress) =>
      match e.2 with
      | .Open finished =>
          match best with
          | none => some (side e.1, finished)
          | some (_, f) =>
              if finished < f then some (side e.1, finished) else best
      | _ => best)
    start

/-- The open non-tower dungeon with the fewest completed levels, light
dungeons scanned before shadow dungeons, ties kept first. -/
def bestOpenDungeon (gs : GameState) : Option DungeonIdent :=
  let b1 := bestOpenFold .light gs.dungeons.light_progress none
  let b2 := bestOpenFold .shadow gs.dungeons.shadow_progress b1
  b2.map (fun p => p.1)

/-- The shared non-portal dungeon fight decision (message.rs lines
513-557, repeated at 681-720 and 944-975): fight when the timer elapsed
or a mushroom skip is budgeted and affordable; prefer the open tower
(the u16 finished level is truncated by the `as u8` cast), else the open
dungeon with the fewest completed levels. -/
def dungeonFightDecision (cfg : CharacterConfig) (gs : GameState)
    (now : Time) : Option SFCommand :=
  let next_ready := nextReadyDungeon gs now
  let use_mush := !next_ready && decide (cfg.max_mushrooms_dungeon_skip > 0)
      && decide (gs.character.mushrooms > 0)
  let can_fight_now := next_ready || use_mush
  if can_fight_now then
    match gs.dungeons.tower_progress with
    | .Open finished => some (.FightTower (finished % 256) use_mush)
    | _ =>
        match bestOpenDungeon gs with
        | some d => some (.FightDungeon d use_mush)
        | none => none
  else none

/-- Pets PvP timer readiness: next_free_battle.map(t <= now).unwrap_or(true). -/
def petsFreeNow (pets : Pets) (now : Time) : Bool :=
  match pets.opponent.next_free_battle with
  | some t => decide (t ≤ now)
  | none => true

/-- Keyed habitat access pets.habitats.get(h), positional in the model. -/
def getHab (pets : Pets) (h : Nat) : Habitat :=
  pets.habitats.getD h ⟨false, [], .NotExploring⟩

/-- Rust Iterator::max_by_key on pet level, which keeps the last maximal
element. -/
def maxByLevel (l : List Pet) : Option Pet :=
  l.foldl
    (fun best p =>
      match best with
      | none => some p
      | some b => if b.level ≤ p.level then some p else some b)
    none

/-- The PvP target habitat (message.rs lines 565-580): prefer the
opponent declared habitat when it is still unfought, else the unfought
habitat whose strongest pet has the highest level (first on ties). -/
def pvpTargetHab (pets : Pets) : Option Nat :=
  let t0 : Option Nat :=
    match pets.opponent.habitat with
    | some h => if !(getHab pets h).battled_opponent then some h else none
    | none => none
  match t0 with
  | some h => some h
  | none =>
      let best := pets.habitats.enum.foldl
        (fun best (e : Nat × Habitat) =>
          if e.2.battled_opponent then best
          else
            match maxByLevel e.2.pets with
            | some p =>
                match best with
                | none => some (e.1, p.level)
                | some (_, lvl) =>
                    if lvl < p.level then some (e.1, p.level) else best
            | none => best)
        none
      best.map (fun p => p.1)

/-- Exploration timer readiness:
next_free_exploration.map(t <= now).unwrap_or(true). -/
def exploreNextReady (pets : Pets) (now : Time) : Bool :=
  match pets.next_free_exploration with
  | some t => decide (t ≤ now)
  | none => true

/-- The habitat to explore (message.rs lines 596-608): among habitats in
the Exploring state, the one whose strongest pet has the highest level
(first on ties), together with the next fight position and that pet. -/
def explorePick (pets : Pets) : Option (Nat × Nat × Nat × Nat) :=
  pets.habitats.enum.foldl
    (fun pick (e : Nat × Habitat) =>
      match e.2.exploration with
      | .Exploring fights_won =>
          match maxByLevel e.2.pets with
          | some best =>
              match pick with
              | none => some (e.1, fights_won + 1, best.level, best.id)
              | some (_, _, lvl, _) =>
                  if lvl < best.level then
                    some (e.1, fights_won + 1, best.level, best.id)
                  else pick
          | none => pick
      | _ => pick)
    none

/-- The pets exploration decision (message.rs lines 589-619): explore
when the timer elapsed or a mushroom skip is budgeted and affordable. -/
def petsExploreDecision (cfg : CharacterConfig) (gs : GameState)
    (pets : Pets) (now : Time) : Option SFCommand :=
  let next_ready := exploreNextReady pets now
  let use_mush := !next_ready && decide (cfg.max_mushrooms_pet_skip > 0)
      && decide (gs.character.mushrooms > 0)
  let can_explore := next_ready || use_mush
  if can_explore then
    match explorePick pets with
    | some (hab, enemy_pos, _, best_id) =>
        some (.FightPetDungeon use_mush hab enemy_pos best_id)
    | none => none
  else none

/-- The pets block of the CityGuard and Idle branches (message.rs lines
560-621 and 723-784): PvP first when the PvP timer is free, then
exploration. -/
def petsDecision (cfg : CharacterConfig) (gs : GameState) (now : Time) :
    Option SFCommand :=
  match gs.pets with
  | none => none
  | some pets =>
      let pvp :=
        if petsFreeNow pets now then
          match pvpTargetHab pets with
          | some h => some (SFCommand.FightPetOpponent h pets.opponent.id)
          | none => none
        else none
      match pvp with
      | some c => some c
      | none => petsExploreDecision cfg gs pets now

/-- The guild block of the CityGuard and Idle branches (message.rs lines
623-644 and 882-902): join defense, else join attack, else hydra when
fights remain and the next battle time has elapsed. -/
def guildDecision (cfg : CharacterConfig) (gs : GameState) (now : Time) :
    Option SFCommand :=
  let c1 :=
    if gs.guild.isSome && cfg.auto_guild_accept_defense then
      some SFCommand.GuildJoinDefense
    else none
  let c2 :=
    match c1 with
    | some c => some c
    | none =>
        if gs.guild.isSome && cfg.auto_guild_accept_attack then
          some SFCommand.GuildJoinAttack
        else none
  match c2 with
  | some c => some c
  | none =>
      if cfg.auto_guild_hydra then
        match gs.guild with
        | some guild =>
            if guild.hydra.remaining_fights > 0 then
              match guild.hydra.next_battle with
              | some next =>
                  if next ≤ now then some (.GuildPetBattle false) else none
              | none => none
            else none
        | none => none
      else none

/-- The CityGuard branch of the decision engine (message.rs lines
497-669): collecting the finished guard pay is set first, but a ready
portal fight under auto_dungeons overwrites it unconditionally; the
remaining dungeon, pets and guild blocks run only while no command is
chosen. -/
def decideCityGuard (cfg : CharacterConfig) (gs : GameState) (now : Time)
    (busy_until : Time) : Option SFCommand :=
  let cmd0 : Option SFCommand :=
    if busy_until ≤ now then some .FinishWork else none
  let cmd1 :=
    if cfg.auto_dungeons then
      let cmdP := if portalReady gs then some SFCommand.FightPortal else cmd0
      if cmdP.isNone then dungeonFightDecision cfg gs now else cmdP
    else cmd0
  let cmd2 := if cmd1.isNone && cfg.auto_pets then petsDecision cfg gs now else cmd1
  if cmd2.isNone && cfg.auto_guild then guildDecision cfg gs now else cmd2

/-- The exact value of f64::MAX, the sentinel of the dead minutes = 0
branch of the in-engine quest scorer. -/
def f64Max : F := .fin ((2 ^ 1024 - 2 ^ 971 : Int) : Rat)

/-- The in-engine quest score (message.rs lines 802-811, repeated at
826-837): minutes is base_length.max(1) as f64 / 60, and the strategy
picks one f64 score; f64 arithmetic is modelled by exact rationals. -/
def questScore (strat : MissionStrategy) (q : TavernQuest) : F :=
  let minutes : Rat := (max q.base_length 1 : Nat) / (60 : Rat)
  let gold : Rat := q.base_silver
  let xp : Rat := q.base_experience
  match strat with
  | .Shortest => .fin (-minutes)
  | .MostGold => .fin gold
  | .BestGoldPerMinute =>
      if 0 < minutes then .fin (gold / minutes) else f64Max
  | .BestXpPerMinute =>
      if 0 < minutes then .fin (xp / minutes) else f64Max
  | .Smartest =>
      let speed := 1 / max minutes 1
      .fin (45 / 100 * (gold / max minutes 1) + 45 / 100 * (xp / max minutes 1)
        + 10 / 100 * speed)

/-- The best-scoring quest index (message.rs lines 799-816): keep-first
argmax over the listed quests, defaulting to 0 when the list is empty
(the source then indexes qs[0] and would panic on an empty list; the
model reads a zeroed quest instead). -/
def bestQuestIdx (strat : MissionStrategy) (qs : List TavernQuest) : Nat :=
  let best := qs.enum.foldl
    (fun best (e : Nat × TavernQuest) =>
      let score := questScore strat e.2
      match best with
      | none => some (e.1, score)
      | some (_, s) => if F.lt s score then some (e.1, score) else best)
    none
  (best.map (fun p => p.1)).getD 0

/-- The best-scoring quest index among quests fitting the remaining
thirst (message.rs lines 825-840). -/
def bestFittingQuestIdx (strat : MissionStrategy) (qs : List TavernQuest)
    (thirst : Nat) : Option Nat :=
  let best := qs.enum.foldl
    (fun best (e : Nat × TavernQuest) =>
      if e.2.base_length ≤ thirst then
        let score := questScore strat e.2
        match best with
        | none => some (e.1, score)
        | some (_, s) => if F.lt s score then some (e.1, score) else best
      else best)
    none
  best.map (fun p => p.1)

/-- The daily beer cap: 10 plus one with the ThirstyWanderer enchantment. -/
def beerCap (gs : GameState) : Nat :=
  10 + (if gs.character.thirsty_wanderer then 1 else 0)

/-- Whether another beer can be bought right now (message.rs line 821 and
866). -/
def canBuyMoreBeer (cfg : CharacterConfig) (gs : GameState) : Bool :=
  cfg.auto_buy_beer_mushrooms && decide (cfg.max_mushrooms_beer > 0)
    && decide (gs.character.mushrooms > 0)
    && decide (gs.tavern.beer_drunk < beerCap gs)

/-- The tavern-start block of the Idle branch (message.rs lines 786-857):
switch to expeditions or start expedition 0 under auto_expeditions, else
under auto_tavern pick the best-scoring quest, buying beer or falling
back to the best quest fitting the remaining thirst when the pick is too
long. -/
def tavernStartDecision (cfg : CharacterConfig) (gs : GameState) :
    Option SFCommand :=
  match gs.tavern.available_tasks with
  | .Expeditions _ =>
      if cfg.auto_expeditions then
        if gs.tavern.questing_preference = .PreferQuests
            && gs.tavern.can_change_questing_preference then
          some (.SetQuestsInsteadOfExpeditions .PreferExpeditions)
        else if gs.tavern.thirst_for_adventure_sec > 0 then
          some (.ExpeditionStart 0)
        else none
      else none
  | .Quests qs =>
      if cfg.auto_tavern then
        let pick_idx := bestQuestIdx cfg.mission_strategy qs
        let picked := qs.getD pick_idx ⟨0, 0, 0⟩
        if picked.base_length > gs.tavern.thirst_for_adventure_sec then
          if canBuyMoreBeer cfg gs then some .BuyBeer
          else
            match bestFittingQuestIdx cfg.mission_strategy qs
                gs.tavern.thirst_for_adventure_sec with
            | some idx => some (.StartQuest idx true)
            | none => none
        else some (.StartQuest pick_idx true)
      else none

/-- The guard-duty fallback of the Idle branch (message.rs lines
859-878): with tavern or expeditions automated, empty thirst and no way
to restore it with beer, start a one-hour guard shift. -/
def cityGuardFallback (cfg : CharacterConfig) (gs : GameState) :
    Option SFCommand :=
  if cfg.auto_tavern || cfg.auto_expeditions then
    if gs.tavern.thirst_for_adventure_sec = 0 then
      let beer_left := beerCap gs - gs.tavern.beer_drunk
      if beer_left = 0 || !canBuyMoreBeer cfg gs then
        some (.StartWork 1)
      else none
    else none
  else none

/-- The Idle and Unknown branch of the decision engine (message.rs lines
671-929): dungeons, then pets, then the tavern start, then the
guard-duty fallback, then guild. -/
def decideIdle (cfg : CharacterConfig) (gs : GameState) (now : Time) :
    Option SFCommand :=
  let cmd1 :=
    if cfg.auto_dungeons then
      let cmdP := if portalReady gs then some SFCommand.FightPortal else none
      if cmdP.isNone then dungeonFightDecision cfg gs now else cmdP
    else none
  let cmd2 := if cmd1.isNone && cfg.auto_pets then petsDecision cfg gs now else cmd1
  let cmd3 := if cmd2.isNone then tavernStartDecision cfg gs else cmd2
  let cmd4 :=
    match cmd3 with
    | some c => some c
    | none => cityGuardFallback cfg gs
  if cmd4.isNone && cfg.auto_guild then guildDecision cfg gs now else cmd4

/-- The running-quest branch of the decision engine (message.rs lines
392-423): finish an elapsed quest, else skip a wait over 60 seconds with
a glass when enabled and available. -/
def decideQuest (cfg : CharacterConfig) (gs : GameState) (now : Time)
    (busy_until : Time) : Option SFCommand :=
  if busy_until ≤ now then some (.FinishQuest none)
  else
    if busy_until - now > 60 then
      if cfg.use_glasses_for_tavern && decide (gs.tavern.quicksand_glasses > 0)
      then some (.FinishQuest (some .Glass))
      else none
    else none

/-- The rank of one expedition reward under the configured priority
(message.rs lines 447-457). -/
def expeditionRewardRank (prio : ExpeditionRewardPriority) (r : RewardItem) :
    Int :=
  match prio with
  | .MushroomsGoldEggs =>
      if r.is_mush then 3 else if r.is_gold then 2 else if r.is_egg then 1 else 0
  | .GoldMushroomsEggs =>
      if r.is_gold then 3 else if r.is_mush then 2 else if r.is_egg then 1 else 0
  | .EggsMushroomsGold =>
      if r.is_egg then 3 else if r.is_mush then 2 else if r.is_gold then 1 else 0

/-- The index of the best-ranked listed reward, starting from index 0 and
rank i32::MIN, replaced only on strictly greater rank (message.rs lines
439-459). -/
def bestRewardIdx (prio : ExpeditionRewardPriority)
    (rewards : List RewardItem) : Nat :=
  (rewards.enum.foldl
    (fun (best : Nat × Int) (e : Nat × RewardItem) =>
      let rank := expeditionRewardRank prio e.2
      if best.2 < rank then (e.1, rank) else best)
    (0, -(2 ^ 31))).1

/-- The running-expedition branch of the decision engine (message.rs
lines 425-495). -/
def decideExpedition (cfg : CharacterConfig) (gs : GameState) (now : Time) :
    Option SFCommand :=
  match gs.tavern.expeditions_active with
  | some active =>
      match active.current_stage with
      | .Boss _ => some .ExpeditionContinue
      | .Rewards rewards =>
          if rewards.isEmpty then none
          else
            some (.ExpeditionPickReward
              (bestRewardIdx cfg.expedition_reward_priority rewards))
      | .Encounters encs =>
          if encs.isEmpty then none
          else some (.ExpeditionPickEncounter 0)
      | .Waiting untilT =>
          if cfg.use_glasses_for_expeditions && decide (untilT - now > 60)
              && decide (gs.tavern.quicksand_glasses > 0) then
            some (.ExpeditionSkipWait .Glass)
          else none
      | .Finished => none
      | .Unknown => none
  | none => none

/-- The side-action pets block (message.rs lines 978-1032): when any
habitat has an unfought opponent only PvP is considered, else only
exploration. -/
def sidePetsDecision (cfg : CharacterConfig) (gs : GameState) (now : Time) :
    Option SFCommand :=
  match gs.pets with
  | none => none
  | some pets =>
      let any_pvp_left := pets.habitats.any (fun hab => !hab.battled_opponent)
      if any_pvp_left then
        if petsFreeNow pets now then
          match pvpTargetHab pets with
          | some h => some (.FightPetOpponent h pets.opponent.id)
          | none => none
        else none
      else petsExploreDecision cfg gs pets now

/-- The side-action guild block (message.rs lines 1034-1040): hydra only. -/
def sideGuildDecision (cfg : CharacterConfig) (gs : GameState) (now : Time) :
    Option SFCommand :=
  match gs.guild with
  | some guild =>
      if cfg.auto_guild_hydra && decide (guild.hydra.remaining_fights > 0) then
        match guild.hydra.next_battle with
        | some next => if next ≤ now then some (.GuildPetBattle false) else none
        | none => none
      else none
  | none => none

/-- The side-action dungeon block (message.rs lines 937-976), identical
in behaviour to the main dungeon block. -/
def sideDungeonDecision (cfg : CharacterConfig) (gs : GameState)
    (now : Time) : Option SFCommand :=
  let cmdP := if portalReady gs then some SFCommand.FightPortal else none
  if cmdP.isNone then dungeonFightDecision cfg gs now else cmdP

/-- The trailing side-action block (message.rs lines 933-1041), run when
the tavern-state branch produced no command. -/
def sideActions (cfg : CharacterConfig) (gs : GameState) (now : Time) :
    Option SFCommand :=
  let c1 := if cfg.auto_dungeons then sideDungeonDecision cfg gs now else none
  let c2 := if c1.isNone && cfg.auto_pets then sidePetsDecision cfg gs now else c1
  if c2.isNone && cfg.auto_guild then sideGuildDecision cfg gs now else c2

/-- The full per-tick decision (message.rs lines 388-1041): dispatch on
the current tavern action, then let side-actions fill in when that
branch chose nothing. -/
def nextCmd (cfg : CharacterConfig) (gs : GameState) (now : Time) :
    Option SFCommand :=
  let next_cmd :=
    match gs.tavern.current_action with
    | .Quest busy_until => decideQuest cfg gs now busy_until
    | .Expedition => decideExpedition cfg gs now
    | .CityGuard _ busy_until => decideCityGuard cfg gs now busy_until
    | .Unknown _ => decideIdle cfg gs now
    | .Idle => decideIdle cfg gs now
  match next_cmd with
  | some c => some c
  | none => sideActions cfg gs now

/-- The top-of-handler automation gate (message.rs line 358). -/
def anyAuto (cfg : CharacterConfig) : Bool :=
  cfg.auto_tavern || cfg.auto_expeditions || cfg.auto_dungeons
    || cfg.auto_pets || cfg.auto_guild

/-- Outcome of one RunAutomationTick handler run. -/
inductive TickResult where
  | disabled
  | retryNotIdle
  | sendNow (cmd : SFCommand)
  | queuedBusy
deriving DecidableEq

/-- The RunAutomationTick handler under its continuously held status
lock (message.rs lines 342-1108): gate on the config, check Idle on the
locked status, decide the command from the locked snapshot (defaulting
to Update), then take_session from that same locked status value and
either send now or enqueue. -/
def runTick (cfg : CharacterConfig) (st : AccountStatus)
    (queue : List SFCommand) (now : Time) :
    TickResult × AccountStatus × List SFCommand :=
  if !anyAuto cfg then (.disabled, st, queue)
  else
    match st with
    | .Idle s gs =>
        let cmd := (nextCmd cfg gs now).getD .Update
        match (AccountStatus.Idle s gs).take_session "Automation" with
        | (some _, st') => (.sendNow cmd, st', queue)
        | (none, st') => (.queuedBusy, st', enqueueOnBusy queue cmd)
    | other => (.retryNotIdle, other, queue)

/-- Sample configuration with every subsystem enabled and unit budgets. -/
def cfgAll : CharacterConfig :=
  ⟨true, true, true, true, true, true, true, true, .Smartest, true, true,
    true, 1, 1, 1, .MushroomsGoldEggs⟩

/-- Snapshot on finished guard duty with a ready portal fight. -/
def gsGuardPortal : GameState :=
  { gsEmpty with
    tavern := { gsEmpty.tavern with current_action := .CityGuard 1 0 }
    dungeons := { gsEmpty.dungeons with portal := some ⟨true⟩ } }

/-- C3 counterexample: with guard duty finished (busy_until 0, now 5),
dungeons automated and the portal ready, the tick chooses FightPortal,
not FinishWork: the portal assignment in the CityGuard branch is not
guarded by cmd.is_none() and overwrites the FinishWork decision. -/
theorem cityguard_portal_overrides_finishwork :
    nextCmd cfgAll gsGuardPortal 5 = some .FightPortal ∧
    some SFCommand.FightPortal ≠ some SFCommand.FinishWork :=
  ⟨by decide, by decide⟩

/-- C3 (amended): when the current action is guard duty whose end time
has passed, the tick chooses FinishWork ahead of every other decision of
that tick, except that a ready portal fight with dungeons automated
overwrites it; no other side-action can displace it. -/
theorem cityguard_finished_priority (cfg : CharacterConfig)
    (gs : GameState) (now : Time) (hours : Nat) (busy_until : Time)
    (hca : gs.tavern.current_action = .CityGuard hours busy_until)
    (hdone : busy_until ≤ now) :
    nextCmd cfg gs now =
      some (if cfg.auto_dungeons && portalReady gs then .FightPortal
            else .FinishWork) := by
  cases hd : cfg.auto_dungeons <;> cases hp : portalReady gs <;>
    simp [nextCmd, hca, decideCityGuard, hdone, hd, hp]

theorem cityguard_finished_priority_witness :
    nextCmd cfgAll gsGuardPortal 5 =
      some (if cfgAll.auto_dungeons && portalReady gsGuardPortal
            then .FightPortal else .FinishWork) :=
  cityguard_finished_priority cfgAll gsGuardPortal 5 1 0 rfl (by decide)

/-- C10: the status lock is held from the Idle check through the
decision to take_session, so take_session always finds the Idle state it
checked: the tick never reaches the enqueue branch, never modifies the
queue, and whenever the status is Idle and automation is enabled the
decided command is sent immediately by this tick. -/
theorem tick_lock_no_enqueue :
    (∀ (cfg : CharacterConfig) (st : AccountStatus) (q : List SFCommand)
        (now : Time), (runTick cfg st q now).1 ≠ .queuedBusy) ∧
    (∀ (cfg : CharacterConfig) (st : AccountStatus) (q : List SFCommand)
        (now : Time), (runTick cfg st q now).2.2 = q) ∧
    (∀ (cfg : CharacterConfig) (s : Nat) (gs : GameState)
        (q : List SFCommand) (now : Time), anyAuto cfg = true →
        runTick cfg (.Idle s gs) q now =
          (.sendNow ((nextCmd cfg gs now).getD .Update),
            .Busy gs "Automation", q)) := by
  refine ⟨?_, ?_, ?_⟩
  · intro cfg st q now
    cases hA : anyAuto cfg <;> cases st <;>
      simp [runTick, hA, AccountStatus.take_session]
  · intro cfg st q now
    cases hA : anyAuto cfg <;> cases st <;>
      simp [runTick, hA, AccountStatus.take_session]
  · intro cfg s gs q now hA
    simp [runTick, hA, AccountStatus.take_session]

theorem tick_lock_no_enqueue_witness :
    runTick cfgAll (.Idle 3 gsEmpty) [] 0 =
      (.sendNow ((nextCmd cfgAll gsEmpty 0).getD .Update),
        .Busy gsEmpty "Automation", []) :=
  tick_lock_no_enqueue.2.2 cfgAll 3 gsEmpty [] 0 (by decide)

/-- Fold of the next-due accumulator used by AutoMissionsChecker::check:
next_due.map_or(Some(t), min) (player.rs lines 308-325). -/
def mergeDue (nd : Option Time) (t : Time) : Option Time :=
  match nd with
  | none => some t
  | some a => some (min a t)

/-- One timer source of the scheduler: the optional timestamp and
whether an absent timestamp sets due_now (the pet and dungeon matches do
on None, the hydra if-let does not). -/
def stepTimer (now : Time) (acc : Bool × Option Time) :
    Option Time × Bool → Bool × Option Time
  | (some t, _) =>
      if t > now then (acc.1, mergeDue acc.2 t) else (true, acc.2)
  | (none, unknown_due) => if unknown_due then (true, acc.2) else acc

/-- The tavern timer source (player.rs lines 290-303): the quest end
while questing, the expedition waiting-until while waiting, else
nothing. -/
def tavernTimerSource (gs : GameState) : List (Option Time × Bool) :=
  match gs.tavern.current_action with
  | .Quest busy_until => [(some busy_until, true)]
  | .Expedition =>
      match gs.tavern.expeditions_active with
      | some active =>
          match active.current_stage with
          | .Waiting u => [(some u, true)]
          | _ => []
      | none => []
  | _ => []

/-- The pet timer sources (player.rs lines 306-315): PvP and exploration
cooldowns, each due when absent. -/
def petsTimerSources (gs : GameState) : List (Option Time × Bool) :=
  match gs.pets with
  | some pets =>
      [(pets.opponent.next_free_battle, true),
       (pets.next_free_exploration, true)]
  | none => []

/-- The guild timer source (player.rs lines 324-326): the hydra next
battle, skipped (not due) when absent. -/
def guildTimerSource (gs : GameState) : List (Option Time × Bool) :=
  match gs.guild with
  | some guild => [(guild.hydra.next_battle, false)]
  | none => []

/-- All timer sources in the order AutoMissionsChecker::check visits
them: tavern, pets, the dungeon next-free-fight (due when absent),
guild. -/
def timerSources (gs : GameState) : List (Option Time × Bool) :=
  (tavernTimerSource gs ++ petsTimerSources gs) ++
    ((gs.dungeons.next_free_fight, true) :: guildTimerSource gs)

/-- The (due_now, next_due) pair computed by AutoMissionsChecker::check
over the idle snapshot (player.rs lines 283-327). -/
def computeTimers (gs : GameState) (now : Time) : Bool × Option Time :=
  (timerSources gs).foldl (stepTimer now) (false, none)

/-- The future timestamps among the timer sources, in visit order. -/
def futureTimers (gs : GameState) (now : Time) : List Time :=
  (timerSources gs).filterMap
    (fun src =>
      match src.1 with
      | some t => if t > now then some t else none
      | none => none)

/-- The four wait shapes of AutoMissionsChecker::check: the 1.5-3.5 s
retry when the account is not idle, the 0.4-1.2 s jitter when something
is due, a capped wait on a future timer (seconds), and the 30-60 s
backoff; the random jitter widths themselves are not modelled. -/
inductive WaitKind where
  | retryBusy
  | jitterShort
  | waitFor (secs : Int)
  | backoffLong
deriving DecidableEq

/-- AutoMissionsChecker::check after the first tick (player.rs lines
271-359): retry when not idle; inspect the snapshot when the second lock
still finds Idle (snap = some gs, else none); jitter when due, wait
min(t - now, 120 s) on a future minimum, and back off only when no
source reported at all. -/
def autoMissionsWait (is_idle : Bool) (snap : Option GameState)
    (now : Time) : WaitKind :=
  if !is_idle then .retryBusy
  else
    let timers :=
      match snap with
      | some gs => computeTimers gs now
      | none => (false, none)
    if timers.1 then .jitterShort
    else
      match timers.2 with
      | some t =>
          if t > now then .waitFor (min (t - now) 120) else .jitterShort
      | none => .backoffLong

theorem foldl_stepTimer_snd (now : Time) (l : List (Option Time × Bool))
    (acc : Bool × Option Time) :
    (l.foldl (stepTimer now) acc).2 =
      (l.filterMap
        (fun src =>
          match src.1 with
          | some t => if t > now then some t else none
          | none => none)).foldl mergeDue acc.2 := by
  induction l generalizing acc with
  | nil => rfl
  | cons x xs ih =>
      obtain ⟨xt, xb⟩ := x
      cases xt with
      | none => cases xb <;> simp [stepTimer, List.filterMap_cons, ih]
      | some t =>
          by_cases ht : t > now <;>
            simp [stepTimer, ht, List.filterMap_cons, ih]

theorem foldl_mergeDue_spec (l : List Time) (acc : Option Time) (t : Time)
    (h : l.foldl mergeDue acc = some t) :
    (t ∈ l ∨ acc = some t) ∧ (∀ u ∈ l, t ≤ u) ∧
      (∀ a, acc = some a → t ≤ a) := by
  induction l generalizing acc with
  | nil =>
      simp only [List.foldl_nil] at h
      refine ⟨Or.inr h, by simp, ?_⟩
      intro a ha
      rw [h] at ha
      exact le_of_eq (Option.some_injective _ ha)
  | cons x xs ih =>
      rw [List.foldl_cons] at h
      obtain ⟨hmem, hbound, hacc⟩ := ih (mergeDue acc x) h
      cases acc with
      | none =>
          have htx : t ≤ x := hacc x (by simp [mergeDue])
          refine ⟨?_, ?_, by simp⟩
          · rcases hmem with hm | he
            · exact Or.inl (List.mem_cons_of_mem _ hm)
            · simp only [mergeDue] at he
              exact Or.inl (by rw [← Option.some_injective _ he]; exact List.mem_cons_self _ _)
          · intro u hu
            rcases List.mem_cons.mp hu with rfl | hm
            · exact htx
            · exact hbound u hm
      | some a =>
          have htmin : t ≤ min a x := hacc (min a x) (by simp [mergeDue])
          refine ⟨?_, ?_, ?_⟩
          · rcases hmem with hm | he
            · exact Or.inl (List.mem_cons_of_mem _ hm)
            · simp only [mergeDue] at he
              have hmx := Option.some_injective _ he
              rcases min_choice a x with hc | hc
              · exact Or.inr (by rw [← hmx, hc])
              · refine Or.inl ?_
                rw [← hmx, hc]
                exact List.mem_cons_self _ _
          · intro u hu
            rcases List.mem_cons.mp hu with rfl | hm
            · exact le_trans htmin (min_le_right _ _)
            · exact hbound u hm
          · intro b hb
            have hab : a = b := Option.some_injective _ hb
            subst hab
            exact le_trans htmin (min_le_left _ _)

theorem stepTimer_due_mono (now : Time) (acc : Bool × Option Time)
    (src : Option Time × Bool) (h : acc.1 = true) :
    (stepTimer now acc src).1 = true := by
  obtain ⟨xt, xb⟩ := src
  cases xt with
  | none => cases xb <;> simp [stepTimer, h]
  | some t => by_cases ht : t > now <;> simp [stepTimer, ht, h]

theorem foldl_stepTimer_due_mono (now : Time)
    (l : List (Option Time × Bool)) (acc : Bool × Option Time)
    (h : acc.1 = true) : (l.foldl (stepTimer now) acc).1 = true := by
  induction l generalizing acc with
  | nil => exact h
  | cons x xs ih => exact ih _ (stepTimer_due_mono now acc x h)

theorem computeTimers_due_of_dungeon_none (gs : GameState) (now : Time)
    (h : gs.dungeons.next_free_fight = none) :
    (computeTimers gs now).1 = true := by
  unfold computeTimers timerSources
  rw [h, List.foldl_append, List.foldl_cons]
  apply foldl_stepTimer_due_mono
  simp [stepTimer]

theorem autoMissionsWait_due_jitter (gs : GameState) (now : Time)
    (h : (computeTimers gs now).1 = true) :
    autoMissionsWait true (some gs) now = .jitterShort := by
  simp [autoMissionsWait, h]

/-- Snapshot whose only timer is a dungeon fight free at time 100. -/
def gsTimer : GameState :=
  { gsEmpty with
    dungeons := { gsEmpty.dungeons with next_free_fight := some 100 } }

/-- C8 counterexample: on an idle snapshot with no timers known at all
(no quest, no expedition, no pets, no dungeon timer, no guild) the
scheduler wakes with the small jitter, not the tens-of-seconds backoff:
an absent dungeon or pet cooldown sets due_now instead of being treated
as unknown. -/
theorem scheduler_no_timers_counterexample :
    autoMissionsWait true (some gsEmpty) 0 = .jitterShort ∧
    WaitKind.jitterShort ≠ WaitKind.backoffLong :=
  ⟨by decide, by decide⟩

/-- C8 (amended): when the account is idle, next_due is the minimum of
the future timestamps among quest end, expedition waiting-until, pet PvP
and exploration cooldowns, dungeon next-free-fight and hydra next-battle;
if any timer has elapsed the wait is only a small jitter; a wait derived
from a future timer is positive and never exceeds the two-minute cap; an
absent dungeon (or pet) cooldown counts as due now, so a snapshot with no
timers known also wakes with the small jitter; the long backoff occurs
only when the idle snapshot cannot be inspected again under the second
lock. -/
theorem scheduler_adaptive_wait :
    (∀ (gs : GameState) (now : Time) (t : Time),
        (computeTimers gs now).2 = some t →
        t ∈ futureTimers gs now ∧ ∀ u ∈ futureTimers gs now, t ≤ u) ∧
    (∀ (gs : GameState) (now : Time), (computeTimers gs now).1 = true →
        autoMissionsWait true (some gs) now = .jitterShort) ∧
    (∀ (gs : GameState) (now : Time) (d : Int),
        autoMissionsWait true (some gs) now = .waitFor d →
        0 < d ∧ d ≤ 120) ∧
    (∀ (gs : GameState) (now : Time),
        gs.dungeons.next_free_fight = none →
        autoMissionsWait true (some gs) now = .jitterShort) ∧
    (∀ now : Time, autoMissionsWait true none now = .backoffLong) := by
  refine ⟨?_, fun gs now h => autoMissionsWait_due_jitter gs now h, ?_, ?_,
    fun now => rfl⟩
  · intro gs now t h
    unfold computeTimers at h
    rw [foldl_stepTimer_snd] at h
    obtain ⟨hmem, hbound, _⟩ := foldl_mergeDue_spec _ _ _ h
    rcases hmem with hm | hnone
    · exact ⟨hm, hbound⟩
    · simp at hnone
  · intro gs now d h
    cases hdue : (computeTimers gs now).1 with
    | true => simp [autoMissionsWait, hdue] at h
    | false =>
        cases hnd : (computeTimers gs now).2 with
        | none => simp [autoMissionsWait, hdue, hnd] at h
        | some t =>
            by_cases ht : t > now
            · simp only [autoMissionsWait, Bool.not_true, if_false,
                hdue, hnd, if_pos ht] at h
              have hd : min (t - now) 120 = d := by
                cases h
                rfl
              have ht' : 0 < t - now := sub_pos.mpr ht
              constructor
              · rw [← hd]
                exact lt_min ht' (by norm_num)
              · rw [← hd]
                exact min_le_right _ _
            · simp [autoMissionsWait, hdue, hnd, ht] at h
  · intro gs now h
    exact autoMissionsWait_due_jitter gs now
      (computeTimers_due_of_dungeon_none gs now h)

theorem scheduler_adaptive_wait_witness :
    (100 ∈ futureTimers gsTimer 0 ∧ ∀ u ∈ futureTimers gsTimer 0, 100 ≤ u) ∧
    (0 < (100 : Int) ∧ (100 : Int) ≤ 120) ∧
    autoMissionsWait true (some gsEmpty) 0 = .jitterShort ∧
    autoMissionsWait true none 0 = .backoffLong :=
  ⟨scheduler_adaptive_wait.1 gsTimer 0 100 (by decide),
   scheduler_adaptive_wait.2.2.1 gsTimer 0 100 (by decide),
   scheduler_adaptive_wait.2.2.2.1 gsEmpty 0 rfl,
   scheduler_adaptive_wait.2.2.2.2 0⟩

/-- The follow-up work a message handler schedules (the Command::perform
closures of message.rs): a re-login attempt, a send of some command, the
delayed handle return after a successful re-login, or nothing further. -/
inductive Effect where
  | relogin (attempt : Nat)
  | sendCmd (c : SFCommand)
  | delayedReturn
  | noEffect
deriving DecidableEq

/-- The PlayerCommandFailed handler (message.rs lines 1767-1808): set the
status to LoggingInAgain unconditionally and spawn a re-login attempt;
the failed command is not referenced by the handler at all, and the
automation queue is not touched. -/
def handlePlayerCommandFailed (st : AccountStatus) (queue : List SFCommand)
    (attempt : Nat) : AccountStatus × List SFCommand × Effect :=
  match st with
  | _ => (.LoggingInAgain, queue, .relogin attempt)

/-- The PlayerRelogSuccess handler (message.rs lines 2352-2371): install
Busy with the fresh post-login snapshot and schedule the delayed handle
return, after which the next tick decides from this fresh snapshot. -/
def handlePlayerRelogSuccess (queue : List SFCommand) (freshGs : GameState) :
    AccountStatus × List SFCommand × Effect :=
  (.Busy freshGs "Waiting", queue, .delayedReturn)

/-- The continuation of the automation send (message.rs lines 1110-1167)
composed with the handler of the message it produces: a successful send
whose response merges into the Busy snapshot puts the session back; a
failed send, or a response that fails to merge, produces
PlayerCommandFailed, whose handler performs the re-login transition. -/
def afterAutomationSend (sendOk : Bool) (updateOk : Bool)
    (newGs : GameState) (st : AccountStatus) (queue : List SFCommand)
    (sessionH : Nat) : AccountStatus × List SFCommand × Effect :=
  if sendOk then
    match st with
    | .Busy _ reason =>
        if updateOk then
          ((AccountStatus.Busy newGs reason).put_session sessionH, queue,
            .noEffect)
        else handlePlayerCommandFailed st queue 0
    | other => (other.put_session sessionH, queue, .noEffect)
  else handlePlayerCommandFailed st queue 0

/-- C9: when the send of the decided command fails, the handler chain
moves the account (whatever its state) to LoggingInAgain, leaves the
automation queue untouched and schedules the re-login attempt — not a
re-send and not an enqueue of the failed command; a later successful
re-login installs the fresh snapshot from which the next tick decides. -/
theorem send_failure_relogin_no_retry :
    (∀ (st : AccountStatus) (queue : List SFCommand) (newGs : GameState)
        (updateOk : Bool) (sessionH : Nat),
        afterAutomationSend false updateOk newGs st queue sessionH =
          (.LoggingInAgain, queue, .relogin 0)) ∧
    (∀ (queue : List SFCommand) (freshGs : GameState),
        handlePlayerRelogSuccess queue freshGs =
          (.Busy freshGs "Waiting", queue, .delayedReturn)) :=
  ⟨fun _ _ _ _ _ => rfl, fun _ _ => rfl⟩
